import Mathlib

/-!
# NetKet, `Unsupervised/py_unsupervised.hpp`: the Python binding of `Qsr`

The file embeds the pybind11 binding of `QuantumStateReconstruction`
(`AddUnsupervisedModule`): the argument records of every `.def`, the
keep-alive declarations, the forwarding lambdas, and the part of the pybind11
dispatcher that turns positional and keyword arguments into the argument list
of the bound C++ callable.

A call argument is identified with the C++ value its type caster yields: an
argument of another type than the parameter is rejected by the loader
(`TypeError`), and implicit conversions between Python types are not modelled.
A `double` is carried as the decimal literal that denotes it; no arithmetic is
done on doubles anywhere in the binding.
-/

namespace netket

/-! ## Values crossing the binding -/

/-- A C++ `double`, written as the decimal literal `mantissa * 10 ^ exp10`. -/
structure Double where
  mantissa : Int
  exp10 : Int
  deriving DecidableEq, Repr

/-- The literal `0.01` of the source. -/
def lit_0_01 : Double := ⟨1, -2⟩

/-- An element of a `py::tuple`: a bound `AbstractOperator` instance (by
address), Python `None`, or an object of any other type. -/
inductive PyItem where
  | oper (ptr : Nat)
  | none
  | other (tag : Nat)
  deriving DecidableEq, Repr

/-- A call argument, classified by the C++ type it converts to.  `none` is
Python `None`, the image of `nonstd::nullopt`. -/
inductive Arg where
  | sampler (ref : Nat)
  | optimizer (ref : Nat)
  | int (i : Int)
  | double (d : Double)
  | bool (b : Bool)
  | str (s : String)
  | tuple (items : List PyItem)
  | vectors (xs : List (List Double))
  | ints (xs : List Int)
  | none
  deriving DecidableEq, Repr

/-- Errors that surface in Python. `TypeError`: no overload accepts the
arguments. `CastError`: `py::cast` failed inside a bound lambda.
`ConfigurationError`: raised by the engine's constructor. -/
inductive PyError where
  | TypeError
  | CastError
  | ConfigurationError
  deriving DecidableEq, Repr

/-- Keyword arguments of a call: a Python `dict`, as an association list. -/
abbrev Kwargs := List (String × Arg)

/-! ## pybind11 argument records and dispatcher -/

/-- The pybind11 `argument_record`: the name given by `py::arg` and the
default value given by `py::arg(...) = value`, if any. -/
structure ArgRecord where
  name : String
  value : Option Arg
  deriving DecidableEq, Repr

/-- The record of `py::arg(name)`. -/
def py_arg (name : String) : ArgRecord := ⟨name, Option.none⟩

/-- The record of `py::arg(name) = value`. -/
def py_arg_v (name : String) (value : Arg) : ArgRecord := ⟨name, some value⟩

/-- The declaration `py::keep_alive<Nurse, Patient>()`. Index 0 is the return
value, index 1 the implicit `self`, the call arguments start at index 2. -/
structure KeepAlive where
  nurse : Nat
  patient : Nat
  deriving DecidableEq, Repr

/-- Removal of a key from the keyword dict (`PyDict_DelItemString`). -/
def Kwargs.del (kw : Kwargs) (name : String) : Kwargs :=
  kw.filter (fun p => p.1 != name)

/-- Dispatcher, step 2: every parameter that got no positional argument takes
its value from the keyword dict (the entry is consumed) or, failing that, its
default; a parameter with neither makes the overload fail. Returns the values
and the keyword entries left over. -/
def fillRest : List ArgRecord → Kwargs → Option (List Arg × Kwargs)
  | [], kw => some ([], kw)
  | r :: rs, kw =>
    match kw.lookup r.name with
    | some v =>
      match fillRest rs (kw.del r.name) with
      | some (vs, rest) => some (v :: vs, rest)
      | Option.none => Option.none
    | Option.none =>
      match r.value with
      | some d =>
        match fillRest rs kw with
        | some (vs, rest) => some (d :: vs, rest)
        | Option.none => Option.none
      | Option.none => Option.none

/-- The pybind11 dispatcher for one overload without `*args`/`**kwargs`:
1. the positional arguments are copied to the first parameters (more
   positional arguments than parameters, or a keyword naming a parameter that
   was given positionally, fails);
2. the remaining parameters are completed from keywords and defaults;
3. a keyword left unconsumed fails.
Every failure is the `TypeError` "incompatible function arguments". -/
def dispatch (args : List ArgRecord) (pos : List Arg) (kw : Kwargs) :
    Except PyError (List Arg) :=
  if args.length < pos.length then Except.error PyError.TypeError
  else if (args.take pos.length).any (fun r => (kw.lookup r.name).isSome) then
    Except.error PyError.TypeError
  else
    match fillRest (args.drop pos.length) kw with
    | some (vs, []) => Except.ok (pos ++ vs)
    | _ => Except.error PyError.TypeError

/-! ## The constructor binding `py::init(...)` of `Qsr` -/

/-- The `py::arg` records of the constructor binding, in declaration order
(lines 59-65). -/
def Qsr_init_args : List ArgRecord :=
  [ py_arg "sampler", py_arg "optimizer",
    py_arg "batch_size", py_arg "n_samples", py_arg "rotations",
    py_arg "samples", py_arg "bases",
    py_arg_v "discarded_samples" (Arg.int (-1)),
    py_arg_v "discarded_samples_on_init" (Arg.int 0), py_arg_v "method" (Arg.str "Gd"),
    py_arg_v "diag_shift" (Arg.double lit_0_01), py_arg_v "use_iterative" (Arg.bool false),
    py_arg_v "use_cholesky" (Arg.bool true) ]

/-- The keep-alive declarations of the constructor binding (lines 58-59). -/
def Qsr_init_keep_alive : List KeepAlive := [⟨1, 2⟩, ⟨1, 3⟩, ⟨1, 7⟩]

/-- A parameter declaration of the forwarding lambda (lines 36-42): its name
and the default written on it, if any. -/
structure ParamDecl where
  name : String
  dflt : Option Arg
  deriving DecidableEq, Repr

/-- The parameter list of the forwarding lambda, in declaration order. -/
def Qsr_init_lambda_params : List ParamDecl :=
  [ ⟨"sa", Option.none⟩, ⟨"op", Option.none⟩,
    ⟨"batch_size", Option.none⟩, ⟨"n_samples", Option.none⟩, ⟨"rotations", Option.none⟩,
    ⟨"samples", Option.none⟩,
    ⟨"bases", Option.none⟩, ⟨"discarded_samples", Option.none⟩,
    ⟨"discarded_samples_on_init", Option.none⟩, ⟨"method", Option.none⟩,
    ⟨"diag_shift", some (Arg.double lit_0_01)⟩, ⟨"use_iterative", some (Arg.bool false)⟩,
    ⟨"use_cholesky", some (Arg.bool true)⟩ ]

/-- The converted arguments the forwarding lambda receives. -/
structure InitLambdaArgs where
  sa : Nat
  op : Nat
  batch_size : Int
  n_samples : Int
  rotations : List PyItem
  samples : List (List Double)
  bases : List Int
  discarded_samples : Int
  discarded_samples_on_init : Int
  method : String
  diag_shift : Double
  use_iterative : Bool
  use_cholesky : Bool
  deriving DecidableEq, Repr

/-- The argument loader of the constructor binding: thirteen values, each of
the type of the lambda parameter at its position. -/
def load_init_args : List Arg → Option InitLambdaArgs
  | [Arg.sampler sa, Arg.optimizer op, Arg.int b, Arg.int n, Arg.tuple r, Arg.vectors x,
      Arg.ints bs, Arg.int d, Arg.int di, Arg.str m, Arg.double ds, Arg.bool ui,
      Arg.bool uc] =>
    some ⟨sa, op, b, n, r, x, bs, d, di, m, ds, ui, uc⟩
  | _ => Option.none

/-- An `AbstractOperator *`: `none` is the null pointer. -/
abbrev OperatorPtr := Option Nat

/-- The pointer caster on one tuple element: an operator instance gives its
address, `None` gives the null pointer, anything else fails. -/
def cast_operator_ptr : PyItem → Option OperatorPtr
  | PyItem.oper p => some (some p)
  | PyItem.none => some Option.none
  | PyItem.other _ => Option.none

/-- `py::cast<std::vector<AbstractOperator *>>(rotations)` (line 43): element by
element, in order; throws `cast_error` when an element does not convert. -/
def py_cast_operators : List PyItem → Except PyError (List OperatorPtr)
  | [] => Except.ok []
  | x :: xs =>
    match cast_operator_ptr x with
    | Option.none => Except.error PyError.CastError
    | some p =>
      match py_cast_operators xs with
      | Except.error e => Except.error e
      | Except.ok ps => Except.ok (p :: ps)

/-- The argument list of the call `QuantumStateReconstruction{...}` (lines
44-56), one field per constructor position, in order. -/
structure CtorArgs where
  sampler : Nat
  optimizer : Nat
  batch_size : Int
  n_samples : Int
  rotations : List OperatorPtr
  samples : List (List Double)
  bases : List Int
  discarded_samples : Int
  discarded_samples_on_init : Int
  method : String
  diag_shift : Double
  use_iterative : Bool
  use_cholesky : Bool
  deriving DecidableEq, Repr

/-- The forwarding lambda (lines 36-57): casts the tuple and passes the
thirteen values to the constructor in the order written. -/
def Qsr_init_lambda (a : InitLambdaArgs) : Except PyError CtorArgs :=
  match py_cast_operators a.rotations with
  | Except.error e => Except.error e
  | Except.ok rots =>
    Except.ok
      { sampler := a.sa
        optimizer := a.op
        batch_size := a.batch_size
        n_samples := a.n_samples
        rotations := rots
        samples := a.samples
        bases := a.bases
        discarded_samples := a.discarded_samples
        discarded_samples_on_init := a.discarded_samples_on_init
        method := a.method
        diag_shift := a.diag_shift
        use_iterative := a.use_iterative
        use_cholesky := a.use_cholesky }

/-- The constructor binding applied to a Python call: dispatch, load, run the
lambda. The result is the constructor invocation it performs. -/
def Qsr_init (pos : List Arg) (kw : Kwargs) : Except PyError CtorArgs :=
  match dispatch Qsr_init_args pos kw with
  | Except.error e => Except.error e
  | Except.ok slots =>
    match load_init_args slots with
    | Option.none => Except.error PyError.TypeError
    | some a => Qsr_init_lambda a

/-- The value the caller supplied for parameter `i`: the positional argument
at `i` if there is one, else the keyword argument under the parameter's name,
else the declared default. -/
def supplied (args : List ArgRecord) (pos : List Arg) (kw : Kwargs) (i : Nat) : Option Arg :=
  match pos[i]? with
  | some v => some v
  | Option.none =>
    match args[i]? with
    | some r =>
      match kw.lookup r.name with
      | some v => some v
      | Option.none => r.value
    | Option.none => Option.none

/-! ## The methods bound on `Qsr` -/

/-- The member functions of `QuantumStateReconstruction` (and of its
observable manager) that the binding refers to. -/
inductive EngineOp where
  | AddObservable
  | Run
  | Iterate
  | Advance
  | ComputeObservables
  | InsertAllStats
  | NegativeLogLikelihood
  deriving DecidableEq, Repr

/-- What a `.def` binds a Python name to: a pointer to a member function, or
a lambda, given by the engine calls of its body in program order. -/
inductive Target where
  | member (op : EngineOp)
  | lambda (body : List EngineOp)
  deriving DecidableEq, Repr

/-- One `.def(name, target, extras...)` of the class. -/
structure MethodDef where
  name : String
  target : Target
  args : List ArgRecord
  keep_alive : List KeepAlive
  deriving DecidableEq, Repr

/-- Lines 66-67. -/
def def_add_observable : MethodDef :=
  ⟨"add_observable", Target.member EngineOp.AddObservable, [], [⟨1, 2⟩]⟩

/-- Lines 68-70. -/
def def_run : MethodDef :=
  ⟨"run", Target.member EngineOp.Run,
    [py_arg "output_prefix", py_arg "n_iter", py_arg_v "step_size" (Arg.int 1),
      py_arg_v "save_params_every" (Arg.int 50)], []⟩

/-- Lines 71-80; `nonstd::nullopt` is cast to `None`. -/
def def_iter : MethodDef :=
  ⟨"iter", Target.member EngineOp.Iterate,
    [py_arg_v "n_iter" Arg.none, py_arg_v "step_size" (Arg.int 1)], []⟩

/-- Lines 81-91. -/
def def_advance : MethodDef :=
  ⟨"advance", Target.member EngineOp.Advance, [py_arg_v "steps" (Arg.int 1)], []⟩

/-- Lines 92-102. -/
def def_get_observable_stats : MethodDef :=
  ⟨"get_observable_stats",
    Target.lambda [EngineOp.ComputeObservables, EngineOp.InsertAllStats], [], []⟩

/-- Lines 103-113. -/
def def_nll : MethodDef :=
  ⟨"nll", Target.member EngineOp.NegativeLogLikelihood,
    [py_arg "rotations", py_arg "samples", py_arg "bases"], []⟩

/-- The `.def`s chained on `py::class_<QuantumStateReconstruction>(subm, "Qsr")`
after the constructor, in source order. -/
def Qsr : List MethodDef :=
  [def_add_observable, def_run, def_iter, def_advance, def_get_observable_stats, def_nll]

/-- A call of a member function of the engine with its argument list. -/
structure EngineCall where
  op : EngineOp
  args : List Arg
  deriving DecidableEq, Repr

/-- A call of a method bound to a member-function pointer with `py::arg`
annotations: the dispatcher builds the argument list and the member function
is called with it. The parameter types of the member functions are declared
in `quantum_state_reconstruction.hpp`, so no argument is rejected for its
type here. -/
def call_member (d : MethodDef) (pos : List Arg) (kw : Kwargs) : Except PyError (List EngineCall) :=
  match dispatch d.args pos kw with
  | Except.error e => Except.error e
  | Except.ok slots =>
    match d.target with
    | Target.member op => Except.ok [⟨op, slots⟩]
    | Target.lambda body => Except.ok (body.map fun op => ⟨op, []⟩)

/-- Python `Qsr.iter(...)`. -/
def Qsr_iter (pos : List Arg) (kw : Kwargs) : Except PyError (List EngineCall) :=
  call_member def_iter pos kw

/-- Python `Qsr.advance(...)`. -/
def Qsr_advance (pos : List Arg) (kw : Kwargs) : Except PyError (List EngineCall) :=
  call_member def_advance pos kw

/-- Python `Qsr.nll(...)`. -/
def Qsr_nll (pos : List Arg) (kw : Kwargs) : Except PyError (List EngineCall) :=
  call_member def_nll pos kw

/-- The caster of an optional integer parameter: `None` is the empty
optional, an integer is the optional holding it. -/
def optional_caster : Arg → Option (Option Int)
  | Arg.none => some Option.none
  | Arg.int n => some (some n)
  | _ => Option.none

/-- The names of the parameters at the patient positions of the keep-alive
declarations with the given nurse; call arguments start at position 2. -/
def patients (args : List ArgRecord) (ka : List KeepAlive) (nurse : Nat) : List String :=
  (ka.filter fun k => k.nurse = nurse).filterMap fun k =>
    if 2 ≤ k.patient then (args[k.patient - 2]?).map ArgRecord.name else Option.none

/-- The position of a named call argument in keep-alive numbering. -/
def position (args : List ArgRecord) (name : String) : Option Nat :=
  (args.findIdx? fun r => r.name == name).map (· + 2)

/-! ## The lambda bound as `get_observable_stats` -/

/-- A `py::dict`: keys to values, as an association list. -/
abbrev PyDict (V : Type) := List (String × V)

/-- The members of the engine and of its observable manager that the lambda
calls; they are declared in `quantum_state_reconstruction.hpp`, so they are
parameters here. `σ` is the engine state, `M` the observable manager. -/
structure ObsMembers (σ M V ε : Type) where
  ComputeObservables : σ → Except ε σ
  GetObsManager : σ → M
  InsertAllStats : M → PyDict V → Except ε (PyDict V)

/-- The lambda of lines 93-98: `py::dict data; self.ComputeObservables();
self.GetObsManager().InsertAllStats(data); return data;`. Returns the dict
and the engine state left by `ComputeObservables`. -/
def get_observable_stats {σ M V ε : Type} (c : ObsMembers σ M V ε) (self : σ) :
    Except ε (PyDict V × σ) :=
  let data : PyDict V := []
  match c.ComputeObservables self with
  | Except.error e => Except.error e
  | Except.ok self1 =>
    match c.InsertAllStats (c.GetObsManager self1) data with
    | Except.error e => Except.error e
    | Except.ok data1 => Except.ok (data1, self1)

/-! ## The engine, as far as the spec describes it -/

/-- Modelled from the spec: what the constructor contract of
`QuantumStateReconstruction` leaves open, namely which method tags exist
besides `"Gd"` and which basis index is the "no rotation" sentinel. -/
structure EngineSpec where
  isVariantTag : String → Bool
  isSentinel : Int → Bool

/-- Modelled from the spec: the engine after construction, its configuration
(fixed) and its IterationCursor. -/
structure Engine where
  config : CtorArgs
  cursor : Nat
  deriving DecidableEq, Repr

/-- Modelled from the spec: a basis index is valid when it is an index into
the BasisSet or the sentinel. -/
def validBasis (sp : EngineSpec) (nRotations : Nat) (b : Int) : Bool :=
  sp.isSentinel b || (decide (0 ≤ b) && decide (b < (nRotations : Int)))

/-- Modelled from the spec: the constructor of `QuantumStateReconstruction`
(`quantum_state_reconstruction.hpp` is not among the sources). Section 7:
mismatched corpus lengths, an invalid basis index and an unknown method tag
are each a ConfigurationError, fatal at construction; otherwise the engine is
Ready with no step completed. -/
def QuantumStateReconstruction (sp : EngineSpec) (c : CtorArgs) : Except PyError Engine :=
  if c.samples.length ≠ c.bases.length then Except.error PyError.ConfigurationError
  else if c.bases.any (fun b => !validBasis sp c.rotations.length b) then
    Except.error PyError.ConfigurationError
  else if !(c.method == "Gd" || sp.isVariantTag c.method) then
    Except.error PyError.ConfigurationError
  else Except.ok ⟨c, 0⟩

/-- Python `Qsr(...)`: the constructor binding followed by the constructor it
invokes. -/
def Qsr_new (sp : EngineSpec) (pos : List Arg) (kw : Kwargs) : Except PyError Engine :=
  match Qsr_init pos kw with
  | Except.error e => Except.error e
  | Except.ok c => QuantumStateReconstruction sp c

/-- Modelled from the spec: what `Advance` works on, the ModelState `θ`, the
state of the random source, and the IterationCursor. -/
structure TrainState (Θ R : Type) where
  model : Θ
  draws : R
  cursor : Nat

/-- Modelled from the spec: the outcome of `Advance`, the state it leaves,
the ModelStates produced by the completed steps in order, and the fatal
failure that stopped it, if any. -/
structure AdvanceResult (Θ R ε : Type) where
  final : TrainState Θ R
  trajectory : List Θ
  failure : Option ε

/-- Modelled from the spec: `Advance(steps)` of section 4.4 (the member is
declared in `quantum_state_reconstruction.hpp`). It performs `steps` update
cycles, each one `cycle` (Phase Estimator, Regularized Solver, Optimizer, a
function of the ModelState, the random draws and the step index) followed by
`IterationCursor += 1`; the first fatal failure stops it and leaves the cursor
at the number of steps completed. -/
def Advance {Θ R ε : Type} (cycle : TrainState Θ R → Except ε (Θ × R)) :
    Nat → TrainState Θ R → AdvanceResult Θ R ε
  | 0, s => ⟨s, [], Option.none⟩
  | n + 1, s =>
    match cycle s with
    | Except.error e => ⟨s, [], some e⟩
    | Except.ok (m, r) =>
      let rest := Advance cycle n ⟨m, r, s.cursor + 1⟩
      ⟨rest.final, m :: rest.trajectory, rest.failure⟩

/-- Modelled from the spec: `advance(k)` followed by `advance(m)` in one
program; a failure of the first call propagates and the second is not made. -/
def AdvanceTwice {Θ R ε : Type} (cycle : TrainState Θ R → Except ε (Θ × R)) (k m : Nat)
    (s : TrainState Θ R) : AdvanceResult Θ R ε :=
  let first := Advance cycle k s
  match first.failure with
  | some e => ⟨first.final, first.trajectory, some e⟩
  | Option.none =>
    let second := Advance cycle m first.final
    ⟨second.final, first.trajectory ++ second.trajectory, second.failure⟩

/-! ## Vocabulary for statements about calls -/

/-- The index of the parameter called `name` (the number of parameters when
there is none). -/
def indexOfArg (args : List ArgRecord) (name : String) : Nat :=
  args.findIdx fun r => r.name == name

/-- The caller omitted the parameter `name`: no positional argument reaches
its index and no keyword carries its name. -/
def omitted (args : List ArgRecord) (pos : List Arg) (kw : Kwargs) (name : String) : Prop :=
  pos.length ≤ indexOfArg args name ∧ kw.lookup name = Option.none

instance (args : List ArgRecord) (pos : List Arg) (kw : Kwargs) (name : String) :
    Decidable (omitted args pos kw name) := by
  unfold omitted
  infer_instance

/-- The value the caller supplied for the parameter called `name`. -/
def suppliedFor (args : List ArgRecord) (pos : List Arg) (kw : Kwargs) (name : String) :
    Option Arg :=
  supplied args pos kw (indexOfArg args name)

/-- Thirteen converted values written as an all-positional call. -/
def positional_of (a : InitLambdaArgs) : List Arg :=
  [Arg.sampler a.sa, Arg.optimizer a.op, Arg.int a.batch_size, Arg.int a.n_samples,
    Arg.tuple a.rotations, Arg.vectors a.samples, Arg.ints a.bases, Arg.int a.discarded_samples,
    Arg.int a.discarded_samples_on_init, Arg.str a.method, Arg.double a.diag_shift,
    Arg.bool a.use_iterative, Arg.bool a.use_cholesky]

/-- Thirteen converted values written as an all-keyword call. -/
def keywords_of (a : InitLambdaArgs) : Kwargs :=
  (Qsr_init_args.map ArgRecord.name).zip (positional_of a)

/-- The constructor invocation that forwards `a` position by position, with
`rots` for the converted tuple. -/
def forwarded (a : InitLambdaArgs) (rots : List OperatorPtr) : CtorArgs :=
  ⟨a.sa, a.op, a.batch_size, a.n_samples, rots, a.samples, a.bases, a.discarded_samples,
    a.discarded_samples_on_init, a.method, a.diag_shift, a.use_iterative, a.use_cholesky⟩

/-- A sample call: sampler 1, optimizer 2, a tuple of one operator and one
`None`, two samples paired with two bases. -/
def sampleArgs : InitLambdaArgs :=
  { sa := 1, op := 2, batch_size := 10, n_samples := 100,
    rotations := [PyItem.oper 7, PyItem.none],
    samples := [[⟨1, 0⟩, ⟨-1, 0⟩], [⟨-1, 0⟩, ⟨1, 0⟩]], bases := [0, 1],
    discarded_samples := 5, discarded_samples_on_init := 3, method := "Sr",
    diag_shift := ⟨5, -1⟩, use_iterative := true, use_cholesky := false }

/-- The constructor contract instantiated with `"Sr"` as the only variant tag
and `-1` as the sentinel, for evaluating the constructor on sample calls. -/
def sampleSpec : EngineSpec := ⟨fun m => m == "Sr", fun b => b == -1⟩

/-- A sample engine for `get_observable_stats`: the state is the pair of the
energy estimate and the last published one; recomputation publishes the
estimate, the manager is the published value, and it inserts it under
`"Energy"`. -/
def sampleMembers : ObsMembers (Int × Int) Int Int PyError :=
  { ComputeObservables := fun s => Except.ok (s.1, s.1)
    GetObsManager := fun s => s.2
    InsertAllStats := fun m data => Except.ok (("Energy", m) :: data) }

/-- A sample update cycle for `Advance`: the model is a counter moved by the
next draw; a draw of zero is a fatal failure. -/
def sampleCycle (s : TrainState Int (List Int)) : Except String (Int × List Int) :=
  match s.draws with
  | [] => Except.error "sampler exhausted"
  | d :: rest => if d = 0 then Except.error "zero draw" else Except.ok (s.model + d, rest)

/-! ## The dispatcher delivers what the caller supplied -/

theorem lookup_del_of_ne (kw : Kwargs) (n m : String) (h : n ≠ m) :
    (kw.del m).lookup n = kw.lookup n := by
  induction kw with
  | nil => rfl
  | cons p ps ih =>
    obtain ⟨k, v⟩ := p
    unfold Kwargs.del at ih ⊢
    by_cases hk : k = m
    · subst hk
      have hnk : (n == k) = false := by simpa using h
      simp [List.filter_cons, List.lookup_cons, hnk, ih]
    · have hkm : (k != m) = true := by simpa using hk
      simp only [List.filter_cons, hkm, if_true, List.lookup_cons]
      cases hnk : (n == k) with
      | true => rfl
      | false => simpa using ih

theorem fillRest_getElem? (rs : List ArgRecord) :
    ∀ (kw : Kwargs) (vs : List Arg) (rest : Kwargs),
      fillRest rs kw = some (vs, rest) → (rs.map ArgRecord.name).Nodup →
      vs.length = rs.length ∧
        ∀ (i : Nat) (r : ArgRecord), rs[i]? = some r →
          vs[i]? = (match kw.lookup r.name with
            | some v => some v
            | Option.none => r.value) := by
  induction rs with
  | nil =>
    intro kw vs rest h _
    simp only [fillRest, Option.some.injEq, Prod.mk.injEq] at h
    obtain ⟨rfl, -⟩ := h
    exact ⟨rfl, by simp⟩
  | cons r rs ih =>
    intro kw vs rest h hnd
    rw [List.map_cons, List.nodup_cons] at hnd
    obtain ⟨hnotin, hnd⟩ := hnd
    unfold fillRest at h
    cases hl : kw.lookup r.name with
    | some v =>
      rw [hl] at h
      cases hf : fillRest rs (kw.del r.name) with
      | none => rw [hf] at h; simp at h
      | some q =>
        obtain ⟨vs1, rest1⟩ := q
        rw [hf] at h
        simp only [Option.some.injEq, Prod.mk.injEq] at h
        obtain ⟨rfl, -⟩ := h
        obtain ⟨hlen, hget⟩ := ih _ _ _ hf hnd
        refine ⟨by simp [hlen], ?_⟩
        intro i r1 hi
        cases i with
        | zero =>
          simp only [List.getElem?_cons_zero, Option.some.injEq] at hi
          subst hi
          simp [hl]
        | succ j =>
          rw [List.getElem?_cons_succ] at hi ⊢
          have hne : r1.name ≠ r.name := by
            intro he
            apply hnotin
            rw [← he]
            exact List.mem_map_of_mem _ (List.mem_iff_getElem?.2 ⟨j, hi⟩)
          rw [hget j r1 hi, lookup_del_of_ne kw _ _ hne]
    | none =>
      rw [hl] at h
      cases hv : r.value with
      | none => rw [hv] at h; simp at h
      | some d =>
        rw [hv] at h
        cases hf : fillRest rs kw with
        | none => rw [hf] at h; simp at h
        | some q =>
          obtain ⟨vs1, rest1⟩ := q
          rw [hf] at h
          simp only [Option.some.injEq, Prod.mk.injEq] at h
          obtain ⟨rfl, -⟩ := h
          obtain ⟨hlen, hget⟩ := ih _ _ _ hf hnd
          refine ⟨by simp [hlen], ?_⟩
          intro i r1 hi
          cases i with
          | zero =>
            simp only [List.getElem?_cons_zero, Option.some.injEq] at hi
            subst hi
            simp [hl, hv]
          | succ j =>
            rw [List.getElem?_cons_succ] at hi ⊢
            exact hget j r1 hi

theorem dispatch_supplied (args : List ArgRecord) (pos : List Arg) (kw : Kwargs)
    (slots : List Arg) (hnd : (args.map ArgRecord.name).Nodup)
    (h : dispatch args pos kw = Except.ok slots) :
    slots.length = args.length ∧ pos.length ≤ args.length ∧
      ∀ i, i < args.length → slots[i]? = supplied args pos kw i := by
  unfold dispatch at h
  split at h
  · cases h
  split at h
  · cases h
  rename_i hlen _
  have hlen : pos.length ≤ args.length := Nat.le_of_not_lt hlen
  split at h
  · rename_i vs hf
    simp only [Except.ok.injEq] at h
    subst h
    have hnd2 : ((args.drop pos.length).map ArgRecord.name).Nodup := by
      rw [List.map_drop]
      exact List.Nodup.sublist (List.drop_sublist _ _) hnd
    obtain ⟨hl, hget⟩ := fillRest_getElem? _ _ _ _ hf hnd2
    refine ⟨by rw [List.length_append, hl, List.length_drop]; omega, hlen, ?_⟩
    intro i hi
    unfold supplied
    by_cases hip : i < pos.length
    · rw [List.getElem?_append_left hip, List.getElem?_eq_getElem hip]
    · have hip : pos.length ≤ i := Nat.le_of_not_lt hip
      rw [List.getElem?_append_right hip, List.getElem?_eq_none hip]
      have hr : args[i]? = some (args[i]) := List.getElem?_eq_getElem hi
      have hd : (args.drop pos.length)[i - pos.length]? = some (args[i]) := by
        rw [List.getElem?_drop, ← hr]
        congr 1
        omega
      rw [hget _ _ hd, hr]
  · cases h

theorem dispatch_error (args : List ArgRecord) (pos : List Arg) (kw : Kwargs) (e : PyError)
    (h : dispatch args pos kw = Except.error e) : e = PyError.TypeError := by
  unfold dispatch at h
  split at h
  · cases h; rfl
  split at h
  · cases h; rfl
  split at h
  · cases h
  · cases h; rfl

theorem supplied_of_omitted (args : List ArgRecord) (pos : List Arg) (kw : Kwargs)
    (name : String) (r : ArgRecord) (hr : args[indexOfArg args name]? = some r)
    (hn : r.name = name) (h : omitted args pos kw name) :
    suppliedFor args pos kw name = r.value := by
  unfold suppliedFor supplied
  rw [List.getElem?_eq_none h.1, hr]
  simp only [hn, h.2]

/-! ## The constructor binding -/

theorem Qsr_init_args_nodup : (Qsr_init_args.map ArgRecord.name).Nodup := by decide

theorem load_init_args_some (s : List Arg) (a : InitLambdaArgs)
    (h : load_init_args s = some a) : s = positional_of a := by
  unfold load_init_args at h
  split at h
  · simp only [Option.some.injEq] at h
    subst h
    rfl
  · cases h

theorem Qsr_init_lambda_ok (a : InitLambdaArgs) (c : CtorArgs)
    (h : Qsr_init_lambda a = Except.ok c) :
    py_cast_operators a.rotations = Except.ok c.rotations ∧ c = forwarded a c.rotations := by
  unfold Qsr_init_lambda at h
  cases hr : py_cast_operators a.rotations with
  | error e => rw [hr] at h; cases h
  | ok rots =>
    rw [hr] at h
    simp only [Except.ok.injEq] at h
    subst h
    exact ⟨rfl, rfl⟩

theorem Qsr_init_ok (pos : List Arg) (kw : Kwargs) (c : CtorArgs)
    (h : Qsr_init pos kw = Except.ok c) :
    ∃ a : InitLambdaArgs,
      (∀ i, i < 13 → (positional_of a)[i]? = supplied Qsr_init_args pos kw i) ∧
      py_cast_operators a.rotations = Except.ok c.rotations ∧ c = forwarded a c.rotations := by
  unfold Qsr_init at h
  cases hd : dispatch Qsr_init_args pos kw with
  | error e => rw [hd] at h; cases h
  | ok slots =>
    rw [hd] at h
    simp only at h
    cases hl : load_init_args slots with
    | none => rw [hl] at h; cases h
    | some a =>
      rw [hl] at h
      have hs := load_init_args_some slots a hl
      obtain ⟨-, -, hget⟩ := dispatch_supplied _ _ _ _ Qsr_init_args_nodup hd
      obtain ⟨h1, h2⟩ := Qsr_init_lambda_ok a c h
      exact ⟨a, fun i hi => by rw [← hs]; exact hget i hi, h1, h2⟩

theorem dispatch_error_of_missing (args : List ArgRecord) (pos : List Arg) (kw : Kwargs)
    (hnd : (args.map ArgRecord.name).Nodup) (i : Nat) (hi : i < args.length)
    (h : supplied args pos kw i = Option.none) :
    dispatch args pos kw = Except.error PyError.TypeError := by
  cases hd : dispatch args pos kw with
  | error e => rw [dispatch_error _ _ _ _ hd]
  | ok slots =>
    obtain ⟨hlen, -, hget⟩ := dispatch_supplied _ _ _ _ hnd hd
    have h1 := hget i hi
    rw [h, List.getElem?_eq_none_iff] at h1
    omega

theorem Qsr_init_error_of_missing (pos : List Arg) (kw : Kwargs) (i : Nat) (hi : i < 13)
    (h : supplied Qsr_init_args pos kw i = Option.none) :
    Qsr_init pos kw = Except.error PyError.TypeError := by
  unfold Qsr_init
  rw [dispatch_error_of_missing Qsr_init_args pos kw Qsr_init_args_nodup i hi h]

theorem call_member_ok (d : MethodDef) (op : EngineOp) (pos : List Arg) (kw : Kwargs)
    (calls : List EngineCall) (ht : d.target = Target.member op)
    (hnd : (d.args.map ArgRecord.name).Nodup)
    (h : call_member d pos kw = Except.ok calls) :
    ∃ slots : List Arg, calls = [⟨op, slots⟩] ∧ slots.length = d.args.length ∧
      ∀ i, i < d.args.length → slots[i]? = supplied d.args pos kw i := by
  unfold call_member at h
  cases hd : dispatch d.args pos kw with
  | error e => rw [hd] at h; cases h
  | ok slots =>
    rw [hd, ht] at h
    simp only [Except.ok.injEq] at h
    obtain ⟨hlen, -, hget⟩ := dispatch_supplied _ _ _ _ hnd hd
    exact ⟨slots, h.symm, hlen, hget⟩

theorem del_zip_of_not_mem (n : String) :
    ∀ (names : List String) (vs : List Arg), n ∉ names →
      Kwargs.del (names.zip vs) n = names.zip vs := by
  intro names
  induction names with
  | nil => intro vs _; rfl
  | cons m ms ih =>
    intro vs hn
    cases vs with
    | nil => rfl
    | cons v vs =>
      rw [List.mem_cons, not_or] at hn
      have hm : (m != n) = true := by simpa using fun h => hn.1 h.symm
      have := ih vs hn.2
      unfold Kwargs.del at this ⊢
      simp only [List.zip_cons_cons, List.filter_cons, hm, if_true, this]

theorem fillRest_zip (rs : List ArgRecord) :
    ∀ vs : List Arg, vs.length = rs.length → (rs.map ArgRecord.name).Nodup →
      fillRest rs ((rs.map ArgRecord.name).zip vs) = some (vs, []) := by
  induction rs with
  | nil =>
    intro vs hl _
    cases vs with
    | nil => rfl
    | cons v vs => simp at hl
  | cons r rs ih =>
    intro vs hl hnd
    cases vs with
    | nil => simp at hl
    | cons v vs =>
      rw [List.map_cons, List.nodup_cons] at hnd
      simp only [List.length_cons, Nat.add_right_cancel_iff] at hl
      have hlook : List.lookup r.name ((r.name, v) :: (rs.map ArgRecord.name).zip vs) = some v := by
        simp [List.lookup_cons]
      have hdel : Kwargs.del ((r.name, v) :: (rs.map ArgRecord.name).zip vs) r.name
          = (rs.map ArgRecord.name).zip vs := by
        have := del_zip_of_not_mem r.name _ vs hnd.1
        unfold Kwargs.del at this ⊢
        simp only [List.filter_cons, bne_self_eq_false, Bool.false_eq_true, if_false, this]
      unfold fillRest
      simp only [List.map_cons, List.zip_cons_cons]
      rw [hlook]
      simp only
      rw [hdel, ih vs hl hnd.2]

theorem dispatch_keywords (args : List ArgRecord) (vs : List Arg)
    (hl : vs.length = args.length) (hnd : (args.map ArgRecord.name).Nodup) :
    dispatch args [] ((args.map ArgRecord.name).zip vs) = Except.ok vs := by
  unfold dispatch
  simp [fillRest_zip args vs hl hnd]

theorem Qsr_init_keywords (a : InitLambdaArgs) :
    Qsr_init [] (keywords_of a) = Qsr_init_lambda a := by
  unfold Qsr_init keywords_of
  rw [dispatch_keywords Qsr_init_args (positional_of a) rfl Qsr_init_args_nodup]
  rfl

theorem Qsr_init_lambda_forwarded (a : InitLambdaArgs) (rots : List OperatorPtr)
    (h : py_cast_operators a.rotations = Except.ok rots) :
    Qsr_init_lambda a = Except.ok (forwarded a rots) := by
  unfold Qsr_init_lambda
  rw [h]
  rfl

theorem Qsr_init_supplied (pos : List Arg) (kw : Kwargs) (c : CtorArgs)
    (h : Qsr_init pos kw = Except.ok c) :
    ∃ rotations : List PyItem,
      suppliedFor Qsr_init_args pos kw "sampler" = some (Arg.sampler c.sampler) ∧
      suppliedFor Qsr_init_args pos kw "optimizer" = some (Arg.optimizer c.optimizer) ∧
      suppliedFor Qsr_init_args pos kw "batch_size" = some (Arg.int c.batch_size) ∧
      suppliedFor Qsr_init_args pos kw "n_samples" = some (Arg.int c.n_samples) ∧
      suppliedFor Qsr_init_args pos kw "rotations" = some (Arg.tuple rotations) ∧
      suppliedFor Qsr_init_args pos kw "samples" = some (Arg.vectors c.samples) ∧
      suppliedFor Qsr_init_args pos kw "bases" = some (Arg.ints c.bases) ∧
      suppliedFor Qsr_init_args pos kw "discarded_samples" = some (Arg.int c.discarded_samples) ∧
      suppliedFor Qsr_init_args pos kw "discarded_samples_on_init"
        = some (Arg.int c.discarded_samples_on_init) ∧
      suppliedFor Qsr_init_args pos kw "method" = some (Arg.str c.method) ∧
      suppliedFor Qsr_init_args pos kw "diag_shift" = some (Arg.double c.diag_shift) ∧
      suppliedFor Qsr_init_args pos kw "use_iterative" = some (Arg.bool c.use_iterative) ∧
      suppliedFor Qsr_init_args pos kw "use_cholesky" = some (Arg.bool c.use_cholesky) ∧
      py_cast_operators rotations = Except.ok c.rotations := by
  obtain ⟨a, hget, hcast, hc⟩ := Qsr_init_ok pos kw c h
  have e : ∀ (i : Nat) (v : Arg), i < 13 → (positional_of a)[i]? = some v →
      supplied Qsr_init_args pos kw i = some v := fun i v hi hv => by rw [← hget i hi, hv]
  have f0 : c.sampler = a.sa := by rw [hc]; rfl
  have f1 : c.optimizer = a.op := by rw [hc]; rfl
  have f2 : c.batch_size = a.batch_size := by rw [hc]; rfl
  have f3 : c.n_samples = a.n_samples := by rw [hc]; rfl
  have f5 : c.samples = a.samples := by rw [hc]; rfl
  have f6 : c.bases = a.bases := by rw [hc]; rfl
  have f7 : c.discarded_samples = a.discarded_samples := by rw [hc]; rfl
  have f8 : c.discarded_samples_on_init = a.discarded_samples_on_init := by rw [hc]; rfl
  have f9 : c.method = a.method := by rw [hc]; rfl
  have f10 : c.diag_shift = a.diag_shift := by rw [hc]; rfl
  have f11 : c.use_iterative = a.use_iterative := by rw [hc]; rfl
  have f12 : c.use_cholesky = a.use_cholesky := by rw [hc]; rfl
  refine ⟨a.rotations, ?_, ?_, ?_, ?_, ?_, ?_, ?_, ?_, ?_, ?_, ?_, ?_, ?_, hcast⟩
  · rw [f0]; exact e 0 _ (by omega) rfl
  · rw [f1]; exact e 1 _ (by omega) rfl
  · rw [f2]; exact e 2 _ (by omega) rfl
  · rw [f3]; exact e 3 _ (by omega) rfl
  · exact e 4 _ (by omega) rfl
  · rw [f5]; exact e 5 _ (by omega) rfl
  · rw [f6]; exact e 6 _ (by omega) rfl
  · rw [f7]; exact e 7 _ (by omega) rfl
  · rw [f8]; exact e 8 _ (by omega) rfl
  · rw [f9]; exact e 9 _ (by omega) rfl
  · rw [f10]; exact e 10 _ (by omega) rfl
  · rw [f11]; exact e 11 _ (by omega) rfl
  · rw [f12]; exact e 12 _ (by omega) rfl

/-! ## Claims on the constructor binding -/

/-- C1: whenever a construction through the binding succeeds and `diag_shift`,
`use_iterative` or `use_cholesky` is omitted, the constructor receives
`0.01`, `false` (direct solve) and `true` (Cholesky) for it; a call giving
only the first ten arguments does construct, with these three values; and
every default written on a parameter of the forwarding lambda is the default
declared on the keyword argument of the same name (they are exactly the
three above). -/
theorem Qsr_init_solver_defaults :
    (∀ (pos : List Arg) (kw : Kwargs) (c : CtorArgs), Qsr_init pos kw = Except.ok c →
      (omitted Qsr_init_args pos kw "diag_shift" → c.diag_shift = lit_0_01) ∧
      (omitted Qsr_init_args pos kw "use_iterative" → c.use_iterative = false) ∧
      (omitted Qsr_init_args pos kw "use_cholesky" → c.use_cholesky = true)) ∧
    (∀ (a : InitLambdaArgs) (rots : List OperatorPtr),
      py_cast_operators a.rotations = Except.ok rots →
      Qsr_init ((positional_of a).take 10) [] = Except.ok
        (forwarded { a with diag_shift := lit_0_01, use_iterative := false,
                            use_cholesky := true } rots)) ∧
    (∀ p ∈ Qsr_init_lambda_params, p.dflt ≠ Option.none →
      (⟨p.name, p.dflt⟩ : ArgRecord) ∈ Qsr_init_args) ∧
    (Qsr_init_lambda_params.filter fun p => p.dflt.isSome) =
      [⟨"diag_shift", some (Arg.double ⟨1, -2⟩)⟩, ⟨"use_iterative", some (Arg.bool false)⟩,
        ⟨"use_cholesky", some (Arg.bool true)⟩] := by
  refine ⟨?_, ?_, by decide, by decide⟩
  · intro pos kw c h
    obtain ⟨r, -, -, -, -, -, -, -, -, -, -, h10, h11, h12, -⟩ := Qsr_init_supplied pos kw c h
    refine ⟨fun ho => ?_, fun ho => ?_, fun ho => ?_⟩
    · have := supplied_of_omitted Qsr_init_args pos kw "diag_shift"
        (py_arg_v "diag_shift" (Arg.double lit_0_01)) (by decide) rfl ho
      rw [h10] at this
      simpa [py_arg_v] using this
    · have := supplied_of_omitted Qsr_init_args pos kw "use_iterative"
        (py_arg_v "use_iterative" (Arg.bool false)) (by decide) rfl ho
      rw [h11] at this
      simpa [py_arg_v] using this
    · have := supplied_of_omitted Qsr_init_args pos kw "use_cholesky"
        (py_arg_v "use_cholesky" (Arg.bool true)) (by decide) rfl ho
      rw [h12] at this
      simpa [py_arg_v] using this
  · intro a rots h
    have e : Qsr_init ((positional_of a).take 10) [] = Qsr_init_lambda
        { a with diag_shift := lit_0_01, use_iterative := false, use_cholesky := true } := by
      simp [Qsr_init, dispatch, positional_of, Qsr_init_args, py_arg, py_arg_v, fillRest,
        load_init_args]
    rw [e]
    exact Qsr_init_lambda_forwarded _ rots h

/-- C1 at a call with ten positional arguments: it constructs, and the three
omitted settings arrive as `0.01`, `false`, `true`. -/
theorem Qsr_init_solver_defaults_witness :
    Qsr_init ((positional_of sampleArgs).take 10) [] = Except.ok
        (forwarded { sampleArgs with diag_shift := lit_0_01, use_iterative := false,
                                     use_cholesky := true } [some 7, Option.none]) ∧
      (forwarded { sampleArgs with diag_shift := lit_0_01, use_iterative := false,
                                   use_cholesky := true } [some 7, Option.none]).diag_shift
        = lit_0_01 :=
  ⟨Qsr_init_solver_defaults.2.1 sampleArgs [some 7, Option.none] rfl,
    (Qsr_init_solver_defaults.1 ((positional_of sampleArgs).take 10) [] _
      (Qsr_init_solver_defaults.2.1 sampleArgs [some 7, Option.none] rfl)).1 (by decide)⟩

/-- C10: the arguments of the constructor binding without a default are
exactly `sampler`, `optimizer`, `batch_size`, `n_samples`, `rotations`,
`samples` and `bases`, and a call omitting one of them is rejected with a
`TypeError`; in a successful call, an omitted `method` reaches the
constructor as `"Gd"`, an omitted `discarded_samples_on_init` as `0`, and an
omitted `discarded_samples` as `-1`, a negative number, unchanged. -/
theorem Qsr_init_required_and_defaults :
    ((Qsr_init_args.filter fun r => r.value.isNone).map ArgRecord.name =
      ["sampler", "optimizer", "batch_size", "n_samples", "rotations", "samples", "bases"]) ∧
    (∀ (pos : List Arg) (kw : Kwargs) (name : String),
      name ∈ ["sampler", "optimizer", "batch_size", "n_samples", "rotations", "samples",
        "bases"] →
      omitted Qsr_init_args pos kw name → Qsr_init pos kw = Except.error PyError.TypeError) ∧
    (∀ (pos : List Arg) (kw : Kwargs) (c : CtorArgs), Qsr_init pos kw = Except.ok c →
      (omitted Qsr_init_args pos kw "method" → c.method = "Gd") ∧
      (omitted Qsr_init_args pos kw "discarded_samples_on_init" →
        c.discarded_samples_on_init = 0) ∧
      (omitted Qsr_init_args pos kw "discarded_samples" →
        c.discarded_samples = -1 ∧ c.discarded_samples < 0)) ∧
    (∀ (a : InitLambdaArgs) (rots : List OperatorPtr),
      py_cast_operators a.rotations = Except.ok rots →
      Qsr_init ((positional_of a).take 7) [] = Except.ok
        (forwarded { a with discarded_samples := -1, discarded_samples_on_init := 0,
                            method := "Gd", diag_shift := lit_0_01, use_iterative := false,
                            use_cholesky := true } rots)) := by
  refine ⟨by decide, ?_, ?_, ?_⟩
  · intro pos kw name hn ho
    simp only [List.mem_cons, List.mem_singleton, List.not_mem_nil, or_false] at hn
    rcases hn with rfl | rfl | rfl | rfl | rfl | rfl | rfl
    · exact Qsr_init_error_of_missing pos kw 0 (by omega)
        (supplied_of_omitted Qsr_init_args pos kw "sampler" (py_arg "sampler") (by decide) rfl ho)
    · exact Qsr_init_error_of_missing pos kw 1 (by omega)
        (supplied_of_omitted Qsr_init_args pos kw "optimizer" (py_arg "optimizer") (by decide)
          rfl ho)
    · exact Qsr_init_error_of_missing pos kw 2 (by omega)
        (supplied_of_omitted Qsr_init_args pos kw "batch_size" (py_arg "batch_size") (by decide)
          rfl ho)
    · exact Qsr_init_error_of_missing pos kw 3 (by omega)
        (supplied_of_omitted Qsr_init_args pos kw "n_samples" (py_arg "n_samples") (by decide)
          rfl ho)
    · exact Qsr_init_error_of_missing pos kw 4 (by omega)
        (supplied_of_omitted Qsr_init_args pos kw "rotations" (py_arg "rotations") (by decide)
          rfl ho)
    · exact Qsr_init_error_of_missing pos kw 5 (by omega)
        (supplied_of_omitted Qsr_init_args pos kw "samples" (py_arg "samples") (by decide) rfl ho)
    · exact Qsr_init_error_of_missing pos kw 6 (by omega)
        (supplied_of_omitted Qsr_init_args pos kw "bases" (py_arg "bases") (by decide) rfl ho)
  · intro pos kw c h
    obtain ⟨r, -, -, -, -, -, -, -, h7, h8, h9, -, -, -, -⟩ := Qsr_init_supplied pos kw c h
    refine ⟨fun ho => ?_, fun ho => ?_, fun ho => ?_⟩
    · have := supplied_of_omitted Qsr_init_args pos kw "method"
        (py_arg_v "method" (Arg.str "Gd")) (by decide) rfl ho
      rw [h9] at this
      simpa [py_arg_v] using this
    · have := supplied_of_omitted Qsr_init_args pos kw "discarded_samples_on_init"
        (py_arg_v "discarded_samples_on_init" (Arg.int 0)) (by decide) rfl ho
      rw [h8] at this
      simpa [py_arg_v] using this
    · have := supplied_of_omitted Qsr_init_args pos kw "discarded_samples"
        (py_arg_v "discarded_samples" (Arg.int (-1))) (by decide) rfl ho
      rw [h7] at this
      have hv : c.discarded_samples = -1 := by simpa [py_arg_v] using this
      exact ⟨hv, by rw [hv]; decide⟩
  · intro a rots h
    have e : Qsr_init ((positional_of a).take 7) [] = Qsr_init_lambda
        { a with discarded_samples := -1, discarded_samples_on_init := 0, method := "Gd",
                 diag_shift := lit_0_01, use_iterative := false, use_cholesky := true } := by
      simp [Qsr_init, dispatch, positional_of, Qsr_init_args, py_arg, py_arg_v, fillRest,
        load_init_args]
    rw [e]
    exact Qsr_init_lambda_forwarded _ rots h

/-- C10 at calls of the sample: six positional arguments are rejected, seven
construct with `-1`, `0` and `"Gd"`. -/
theorem Qsr_init_required_and_defaults_witness :
    Qsr_init ((positional_of sampleArgs).take 6) [] = Except.error PyError.TypeError ∧
      Qsr_init ((positional_of sampleArgs).take 7) [] = Except.ok
        (forwarded { sampleArgs with discarded_samples := -1, discarded_samples_on_init := 0,
                                     method := "Gd", diag_shift := lit_0_01,
                                     use_iterative := false, use_cholesky := true }
          [some 7, Option.none]) ∧
      (forwarded { sampleArgs with discarded_samples := -1, discarded_samples_on_init := 0,
                                   method := "Gd", diag_shift := lit_0_01,
                                   use_iterative := false, use_cholesky := true }
          [some 7, Option.none]).discarded_samples = -1 :=
  ⟨Qsr_init_required_and_defaults.2.1 ((positional_of sampleArgs).take 6) [] "bases"
      (by decide) (by decide),
    Qsr_init_required_and_defaults.2.2.2 sampleArgs [some 7, Option.none] rfl,
    ((Qsr_init_required_and_defaults.2.2.1 ((positional_of sampleArgs).take 7) [] _
      (Qsr_init_required_and_defaults.2.2.2 sampleArgs [some 7, Option.none] rfl)).2.2
        (by decide)).1⟩

/-- C3: the constructor fails with ConfigurationError whenever the number of
samples differs from the number of bases; a call through the binding that
reaches the constructor with such a corpus fails with ConfigurationError; and
no call through the binding that supplies samples and bases of different
lengths produces an engine. -/
theorem construction_rejects_mismatched_corpus (sp : EngineSpec) :
    (∀ c : CtorArgs, c.samples.length ≠ c.bases.length →
      QuantumStateReconstruction sp c = Except.error PyError.ConfigurationError) ∧
    (∀ (pos : List Arg) (kw : Kwargs) (c : CtorArgs), Qsr_init pos kw = Except.ok c →
      c.samples.length ≠ c.bases.length →
      Qsr_new sp pos kw = Except.error PyError.ConfigurationError) ∧
    (∀ (pos : List Arg) (kw : Kwargs) (xs : List (List Double)) (bs : List Int),
      suppliedFor Qsr_init_args pos kw "samples" = some (Arg.vectors xs) →
      suppliedFor Qsr_init_args pos kw "bases" = some (Arg.ints bs) →
      xs.length ≠ bs.length → ∀ e : Engine, Qsr_new sp pos kw ≠ Except.ok e) := by
  have key : ∀ c : CtorArgs, c.samples.length ≠ c.bases.length →
      QuantumStateReconstruction sp c = Except.error PyError.ConfigurationError := by
    intro c hne
    unfold QuantumStateReconstruction
    rw [if_pos hne]
  refine ⟨key, ?_, ?_⟩
  · intro pos kw c h hne
    unfold Qsr_new
    rw [h]
    exact key c hne
  · intro pos kw xs bs hx hb hne e he
    unfold Qsr_new at he
    cases hq : Qsr_init pos kw with
    | error err => rw [hq] at he; cases he
    | ok c =>
      rw [hq] at he
      obtain ⟨r, -, -, -, -, -, h5, h6, -⟩ := Qsr_init_supplied pos kw c hq
      rw [hx] at h5
      rw [hb] at h6
      simp only [Option.some.injEq, Arg.vectors.injEq, Arg.ints.injEq] at h5 h6
      subst h5 h6
      simp only at he
      rw [key c hne] at he
      cases he

/-- C3 at the sample call with a third sample and two bases. -/
theorem construction_rejects_mismatched_corpus_witness :
    Qsr_new sampleSpec []
        (keywords_of { sampleArgs with samples := [[], [], []] })
      = Except.error PyError.ConfigurationError :=
  (construction_rejects_mismatched_corpus sampleSpec).2.1 []
    (keywords_of { sampleArgs with samples := [[], [], []] })
    (forwarded { sampleArgs with samples := [[], [], []] } [some 7, Option.none])
    ((Qsr_init_keywords _).trans (Qsr_init_lambda_forwarded _ _ rfl)) (by decide)

/-- C4 (as the code has it): the keep-alive declarations of the constructor
binding with nurse 1 have the patients 2, 3 and 7, which are the positions of
`sampler`, `optimizer` and `samples`; `rotations` is at position 6 and no
keep-alive declaration names it. -/
theorem Qsr_init_keep_alive_patients :
    (Qsr_init_keep_alive.filter fun k => k.nurse = 1).map KeepAlive.patient = [2, 3, 7] ∧
    patients Qsr_init_args Qsr_init_keep_alive 1 = ["sampler", "optimizer", "samples"] ∧
    position Qsr_init_args "sampler" = some 2 ∧
    position Qsr_init_args "optimizer" = some 3 ∧
    position Qsr_init_args "rotations" = some 6 ∧
    position Qsr_init_args "samples" = some 7 ∧
    6 ∉ Qsr_init_keep_alive.map KeepAlive.patient ∧
    "rotations" ∉ patients Qsr_init_args Qsr_init_keep_alive 1 := by
  decide

/-! ## Claims on the bound methods -/

theorem def_iter_nodup : (def_iter.args.map ArgRecord.name).Nodup := by decide

theorem slots_two (slots : List Arg) (h : slots.length = 2) :
    ∃ x y, slots = [x, y] := by
  match slots, h with
  | [x, y], _ => exact ⟨x, y, rfl⟩

/-- C5: `get_observable_stats` returns a mapping exactly when
`ComputeObservables` returns on the engine and `InsertAllStats`, called on the
observable manager of the state that recomputation left and on an empty
mapping, returns that mapping; a failure of the recomputation is propagated
before the manager is consulted; and the result is the same for any two
engine states with the same recomputation outcome, so it holds nothing from
before it. -/
theorem get_observable_stats_current {σ M V ε : Type} (c : ObsMembers σ M V ε) (self : σ) :
    (∀ (d : PyDict V) (s1 : σ), get_observable_stats c self = Except.ok (d, s1) ↔
      (c.ComputeObservables self = Except.ok s1 ∧
        c.InsertAllStats (c.GetObsManager s1) [] = Except.ok d)) ∧
    (∀ e : ε, c.ComputeObservables self = Except.error e →
      get_observable_stats c self = Except.error e) ∧
    (∀ other : σ, c.ComputeObservables other = c.ComputeObservables self →
      get_observable_stats c other = get_observable_stats c self) ∧
    def_get_observable_stats.target =
      Target.lambda [EngineOp.ComputeObservables, EngineOp.InsertAllStats] := by
  refine ⟨?_, ?_, ?_, rfl⟩
  · intro d s1
    unfold get_observable_stats
    cases hc : c.ComputeObservables self with
    | error e => simp
    | ok s2 =>
      simp only [Except.ok.injEq]
      cases hi : c.InsertAllStats (c.GetObsManager s2) [] with
      | error e =>
        constructor
        · intro h
          cases h
        · rintro ⟨rfl, h2⟩
          rw [hi] at h2
          cases h2
      | ok d2 =>
        simp only [Except.ok.injEq, Prod.mk.injEq]
        constructor
        · rintro ⟨rfl, rfl⟩
          exact ⟨rfl, hi⟩
        · rintro ⟨rfl, h2⟩
          rw [hi] at h2
          simp only [Except.ok.injEq] at h2
          exact ⟨h2, rfl⟩
  · intro e he
    unfold get_observable_stats
    rw [he]
  · intro other ho
    unfold get_observable_stats
    rw [ho]

/-- C5 on the sample engine: with estimate 5 and a stale published value 3,
the mapping returned holds the recomputed 5 and only it. -/
theorem get_observable_stats_current_witness :
    get_observable_stats sampleMembers (5, 3) = Except.ok ([("Energy", 5)], (5, 5)) :=
  ((get_observable_stats_current sampleMembers (5, 3)).1 [("Energy", 5)] (5, 5)).2 ⟨rfl, rfl⟩

/-- C6: `iter` calls `Iterate` with two arguments, the value supplied for
`n_iter` and the value supplied for `step_size`, in that order; an omitted
`n_iter` is passed as `None`, which converts to the empty optional, and an
omitted `step_size` as `1`; a given `n_iter` is passed as it is, converting
to the optional that holds it. -/
theorem Qsr_iter_forwards :
    Qsr_iter [] [] = Except.ok [⟨EngineOp.Iterate, [Arg.none, Arg.int 1]⟩] ∧
    optional_caster Arg.none = some Option.none ∧
    (∀ n : Int,
      Qsr_iter [Arg.int n] [] = Except.ok [⟨EngineOp.Iterate, [Arg.int n, Arg.int 1]⟩] ∧
      Qsr_iter [] [("n_iter", Arg.int n)]
        = Except.ok [⟨EngineOp.Iterate, [Arg.int n, Arg.int 1]⟩] ∧
      optional_caster (Arg.int n) = some (some n)) ∧
    (∀ s : Int,
      Qsr_iter [] [("step_size", Arg.int s)]
        = Except.ok [⟨EngineOp.Iterate, [Arg.none, Arg.int s]⟩]) ∧
    (∀ n s : Int,
      Qsr_iter [Arg.int n, Arg.int s] []
        = Except.ok [⟨EngineOp.Iterate, [Arg.int n, Arg.int s]⟩] ∧
      Qsr_iter [] [("step_size", Arg.int s), ("n_iter", Arg.int n)]
        = Except.ok [⟨EngineOp.Iterate, [Arg.int n, Arg.int s]⟩]) ∧
    (∀ (pos : List Arg) (kw : Kwargs) (calls : List EngineCall),
      Qsr_iter pos kw = Except.ok calls →
      ∃ n s : Arg, calls = [⟨EngineOp.Iterate, [n, s]⟩] ∧
        suppliedFor def_iter.args pos kw "n_iter" = some n ∧
        suppliedFor def_iter.args pos kw "step_size" = some s ∧
        (omitted def_iter.args pos kw "n_iter" → n = Arg.none) ∧
        (omitted def_iter.args pos kw "step_size" → s = Arg.int 1)) := by
  refine ⟨rfl, rfl, fun n => ⟨?_, ?_, rfl⟩, fun s => ?_, fun n s => ⟨?_, ?_⟩, ?_⟩
  · simp [Qsr_iter, call_member, dispatch, def_iter, py_arg_v, fillRest]
  · simp [Qsr_iter, call_member, dispatch, def_iter, py_arg_v, fillRest, Kwargs.del,
      List.lookup]
  · simp [Qsr_iter, call_member, dispatch, def_iter, py_arg_v, fillRest, Kwargs.del,
      List.lookup]
  · simp [Qsr_iter, call_member, dispatch, def_iter, py_arg_v, fillRest]
  · simp [Qsr_iter, call_member, dispatch, def_iter, py_arg_v, fillRest, Kwargs.del,
      List.lookup]
  · intro pos kw calls h
    obtain ⟨slots, hc, hlen, hget⟩ :=
      call_member_ok def_iter EngineOp.Iterate pos kw calls rfl def_iter_nodup h
    obtain ⟨n, s, rfl⟩ := slots_two slots hlen
    have h0 : supplied def_iter.args pos kw 0 = some n := (hget 0 (by decide)).symm
    have h1 : supplied def_iter.args pos kw 1 = some s := (hget 1 (by decide)).symm
    refine ⟨n, s, hc, h0, h1, fun ho => ?_, fun ho => ?_⟩
    · have := supplied_of_omitted def_iter.args pos kw "n_iter" (py_arg_v "n_iter" Arg.none)
        (by decide) rfl ho
      have e : suppliedFor def_iter.args pos kw "n_iter" = some n := h0
      rw [e] at this
      simpa [py_arg_v] using this
    · have := supplied_of_omitted def_iter.args pos kw "step_size"
        (py_arg_v "step_size" (Arg.int 1)) (by decide) rfl ho
      have e : suppliedFor def_iter.args pos kw "step_size" = some s := h1
      rw [e] at this
      simpa [py_arg_v] using this

/-- C6 at `iter(step_size=4)`: `Iterate` gets `None` and `4`. -/
theorem Qsr_iter_forwards_witness :
    ∃ n s : Arg, [(⟨EngineOp.Iterate, [Arg.none, Arg.int 4]⟩ : EngineCall)]
        = [⟨EngineOp.Iterate, [n, s]⟩] ∧ n = Arg.none :=
  (Qsr_iter_forwards.2.2.2.2.2 [] [("step_size", Arg.int 4)] _
    (Qsr_iter_forwards.2.2.2.1 4)).elim
    fun n h => h.elim fun s hs => ⟨n, s, hs.1, hs.2.2.2.1 (by decide)⟩

theorem Advance_succ_error {Θ R ε : Type} (cycle : TrainState Θ R → Except ε (Θ × R)) (n : Nat)
    (s : TrainState Θ R) (e : ε) (h : cycle s = Except.error e) :
    Advance cycle (n + 1) s = ⟨s, [], some e⟩ := by
  rw [Advance, h]

theorem Advance_succ_ok {Θ R ε : Type} (cycle : TrainState Θ R → Except ε (Θ × R)) (n : Nat)
    (s : TrainState Θ R) (θ : Θ) (r : R) (h : cycle s = Except.ok (θ, r)) :
    Advance cycle (n + 1) s =
      ⟨(Advance cycle n ⟨θ, r, s.cursor + 1⟩).final,
        θ :: (Advance cycle n ⟨θ, r, s.cursor + 1⟩).trajectory,
        (Advance cycle n ⟨θ, r, s.cursor + 1⟩).failure⟩ := by
  rw [Advance, h]

theorem Advance_twice {Θ R ε : Type} (cycle : TrainState Θ R → Except ε (Θ × R)) (m : Nat) :
    ∀ (k : Nat) (s : TrainState Θ R),
      AdvanceTwice cycle k m s = Advance cycle (k + m) s := by
  intro k
  induction k with
  | zero =>
    intro s
    simp [AdvanceTwice, Advance]
  | succ k ih =>
    intro s
    have hk : k + 1 + m = (k + m) + 1 := by omega
    rw [hk]
    cases hc : cycle s with
    | error e =>
      simp only [AdvanceTwice, Advance_succ_error cycle _ s e hc]
    | ok p =>
      obtain ⟨θ, r⟩ := p
      have ih1 := ih ⟨θ, r, s.cursor + 1⟩
      simp only [AdvanceTwice] at ih1
      simp only [AdvanceTwice, Advance_succ_ok cycle _ s θ r hc]
      rw [← ih1]
      cases hf : (Advance cycle k ⟨θ, r, s.cursor + 1⟩).failure with
      | some e => simp
      | none => simp

theorem Advance_cursor {Θ R ε : Type} (cycle : TrainState Θ R → Except ε (Θ × R)) :
    ∀ (k : Nat) (s : TrainState Θ R),
      (Advance cycle k s).final.cursor = s.cursor + (Advance cycle k s).trajectory.length ∧
      ((Advance cycle k s).failure = Option.none →
        (Advance cycle k s).trajectory.length = k) := by
  intro k
  induction k with
  | zero => intro s; simp [Advance]
  | succ k ih =>
    intro s
    unfold Advance
    cases hc : cycle s with
    | error e => simp
    | ok p =>
      obtain ⟨θ, r⟩ := p
      obtain ⟨h1, h2⟩ := ih ⟨θ, r, s.cursor + 1⟩
      simp only [List.length_cons]
      refine ⟨by rw [h1]; simp only; omega, fun hf => by rw [h2 hf]⟩

theorem Advance_sample :
    (Advance sampleCycle 2 ⟨0, [2, 3, 0, 4], 0⟩).trajectory = [2, 5] ∧
      (Advance sampleCycle 2 ⟨0, [2, 3, 0, 4], 0⟩).final.cursor = 2 ∧
      (Advance sampleCycle 4 ⟨0, [2, 3, 0, 4], 0⟩).trajectory = [2, 5] ∧
      (Advance sampleCycle 4 ⟨0, [2, 3, 0, 4], 0⟩).failure = some "zero draw" := by
  decide

/-- C8: for all step counts `k` and `m` and every starting state,
`advance(k)` followed by `advance(m)` leaves the same state (ModelState,
random source, IterationCursor), the same ModelState trajectory and the same
failure, if any, as a single `advance(k + m)`; the cursor always counts the
steps completed; and the binding passes the step count to `Advance` as it
is. -/
theorem Advance_split {Θ R ε : Type} (cycle : TrainState Θ R → Except ε (Θ × R)) (k m : Nat)
    (s : TrainState Θ R) :
    AdvanceTwice cycle k m s = Advance cycle (k + m) s ∧
    (AdvanceTwice cycle k m s).trajectory = (Advance cycle (k + m) s).trajectory ∧
    (AdvanceTwice cycle k m s).final.cursor = (Advance cycle (k + m) s).final.cursor ∧
    (Advance cycle (k + m) s).final.cursor
      = s.cursor + (Advance cycle (k + m) s).trajectory.length ∧
    Qsr_advance [Arg.int k] [] = Except.ok [⟨EngineOp.Advance, [Arg.int k]⟩] := by
  have h := Advance_twice cycle m k s
  refine ⟨h, by rw [h], by rw [h], (Advance_cursor cycle (k + m) s).1, ?_⟩
  simp [Qsr_advance, call_member, dispatch, def_advance, py_arg_v, fillRest]

/-- C9: after the constructor, the class `Qsr` binds exactly six names, each
to the member function of the engine the spec gives it: `add_observable` to
`AddObservable`, `run` to `Run`, `iter` to `Iterate`, `advance` to `Advance`,
`get_observable_stats` to the lambda that calls `ComputeObservables` and then
`InsertAllStats` of the observable manager, `nll` to `NegativeLogLikelihood`,
whose arguments are `rotations`, `samples`, `bases` in that order. -/
theorem Qsr_exposes_six_operations :
    Qsr.map (fun d => (d.name, d.target)) =
      [("add_observable", Target.member EngineOp.AddObservable),
        ("run", Target.member EngineOp.Run),
        ("iter", Target.member EngineOp.Iterate),
        ("advance", Target.member EngineOp.Advance),
        ("get_observable_stats",
          Target.lambda [EngineOp.ComputeObservables, EngineOp.InsertAllStats]),
        ("nll", Target.member EngineOp.NegativeLogLikelihood)] ∧
    Qsr.length = 6 ∧
    (Qsr.map MethodDef.name).Nodup ∧
    def_nll.args.map ArgRecord.name = ["rotations", "samples", "bases"] ∧
    (∀ r s b : Arg,
      Qsr_nll [r, s, b] [] = Except.ok [⟨EngineOp.NegativeLogLikelihood, [r, s, b]⟩] ∧
      Qsr_nll [] [("bases", b), ("samples", s), ("rotations", r)]
        = Except.ok [⟨EngineOp.NegativeLogLikelihood, [r, s, b]⟩]) ∧
    (∀ (σ M V ε : Type) (c : ObsMembers σ M V ε) (self : σ),
      get_observable_stats c self =
        match c.ComputeObservables self with
        | Except.error e => Except.error e
        | Except.ok s1 =>
          match c.InsertAllStats (c.GetObsManager s1) [] with
          | Except.error e => Except.error e
          | Except.ok d => Except.ok (d, s1)) := by
  refine ⟨by decide, rfl, by decide, by decide, fun r s b => ⟨?_, ?_⟩, ?_⟩
  · simp [Qsr_nll, call_member, dispatch, def_nll, py_arg, fillRest]
  · simp [Qsr_nll, call_member, dispatch, def_nll, py_arg, fillRest, Kwargs.del, List.lookup]
  · intro σ M V ε c self
    rfl

end netket
